import Mathlib

/-!
Verification development for the broker-statement ingestion core
(`src/broker_statement/`): the Interactive Brokers section-dispatching
parser (`ib/mod.rs`), the dividend/withholding-tax accrual reconciliation
(`dividends.rs`) and the statement builder (`mod.rs`), shallowly embedded
in Lean.

Conventions of the embedding:
* `chrono::Date` is modelled as a day number (`Nat`); calendar parsing and
  formatting are external collaborators of the core.
* `Decimal` amounts are modelled as `ℚ` (exact decimal arithmetic embeds
  into the rationals).
* Rust fallible functions returning `GenericResult<T>` become
  `Except String T`; `?`-propagation becomes monadic bind.
* `std::collections::HashMap` used purely as a keyed store is modelled as
  an association list with key lookup/removal; where the source *iterates*
  a `HashMap` (whose iteration order is documented to be arbitrary), the
  iteration order is an explicit parameter constrained in the theorems to
  be a permutation of the stored keys.
-/

/-- Model of `types::Date` (`chrono::Date`): a day number. -/
abbrev Date := Nat

/-- Models `formatting::format_date` (the `formatting` module is not under
`src/`): renders a date for error messages. On the day-number model the
rendering is `Nat.repr`, which is injective, matching the fact that the
real date formatter renders distinct dates distinctly. -/
def formatDate (d : Date) : String := Nat.repr d

/-- Model of `currency::Cash` (the `currency` module is not under `src/`;
its use in the core is a currency tag plus a decimal amount). -/
structure Cash where
  currency : String
  amount : ℚ
deriving DecidableEq, Repr

/-- `Cash::new(currency, amount)`. -/
def Cash.new (currency : String) (amount : ℚ) : Cash := ⟨currency, amount⟩

/-- Negation of a cash amount (used for tax cash flows: `-transaction.cash`). -/
instance : Neg Cash := ⟨fun c => ⟨c.currency, -c.amount⟩⟩

/-- One raw accrual transaction: `(date, signed cash amount)`
(spec §3 "Accrual Ledger entry"). -/
structure Transaction where
  date : Date
  cash : Cash
deriving DecidableEq, Repr

/-- Modelled from the spec: `broker_statement::payments::Payments` (the
accrual ledger, `payments.rs`) is not under `src/`. Per spec §4.3 it is an
append-only list of transactions sharing one key. -/
structure Payments where
  transactions : List Transaction
deriving DecidableEq, Repr

/-- Modelled from the spec: `Payments::record` appends a transaction
(spec §4.3 `record(key, date, signed amount)`). -/
def Payments.record (p : Payments) (t : Transaction) : Payments :=
  ⟨p.transactions ++ [t]⟩

/-- Modelled from the spec: `Payments::get_result` (spec §4.3 `resolve`):
sums the signed transactions; if the currency is inconsistent across
transactions it fails with a data-inconsistency error; if the sum is
exactly zero it returns `none` (event fully reversed); otherwise
`some (net amount)`. Both outcomes also return the transaction list. -/
def Payments.get_result (p : Payments) : Except String (Option Cash × List Transaction) :=
  match p.transactions.map (fun t => t.cash.currency) with
  | [] => .ok (none, p.transactions)
  | c :: cs =>
    if cs.all (fun c2 => c2 == c) then
      let total := (p.transactions.map (fun t => t.cash.amount)).sum
      if total = 0 then .ok (none, p.transactions)
      else .ok (some (Cash.new c total), p.transactions)
    else .error "Got transactions with different currencies"

/-- `broker_statement::taxes::TaxId` (module not under `src/`; its shape —
a `(date, issuer)` pair built by `TaxId::new(date, issuer)` with fields
`date` and `issuer` — is fixed by its uses in `dividends.rs`). -/
structure TaxId where
  date : Date
  issuer : String
deriving DecidableEq, Repr

/-- `TaxId::new(date, issuer)`. -/
def TaxId.new (date : Date) (issuer : String) : TaxId := ⟨date, issuer⟩

/-- `broker_statement::taxes::TaxAccruals` — an accrual ledger of
withholding-tax transactions. -/
abbrev TaxAccruals := Payments

/-- `broker_statement::dividends::DividendId` (dividends.rs lines 43-53). -/
structure DividendId where
  date : Date
  issuer : String
deriving DecidableEq, Repr

/-- `DividendId::new(date, issuer)` (dividends.rs lines 49-52). -/
def DividendId.new (date : Date) (issuer : String) : DividendId := ⟨date, issuer⟩

/-- `broker_statement::dividends::DividendAccruals` (dividends.rs line 55). -/
abbrev DividendAccruals := Payments

/-- `broker_statement::dividends::Dividend` (dividends.rs lines 17-24):
a finished dividend record. -/
structure Dividend where
  date : Date
  issuer : String
  amount : Cash
  paid_tax : Cash
  skip_from_cash_flow : Bool
deriving DecidableEq, Repr

/-- `broker_statement::cash_flows::CashFlowType` (module not under `src/`;
its two constructors `Dividend {issuer}` / `Tax {issuer}` are fixed by
their uses in dividends.rs lines 80 and 88). -/
inductive CashFlowType where
  | dividend (issuer : String)
  | tax (issuer : String)
deriving DecidableEq, Repr

/-- `broker_statement::cash_flows::CashFlow` (module not under `src/`; its
fields `date`, `amount`, `type_` are fixed by dividends.rs lines 77-89). -/
structure CashFlow where
  date : Date
  amount : Cash
  type_ : CashFlowType
deriving DecidableEq, Repr

/-- The pending withholding-tax accrual map `HashMap<TaxId, TaxAccruals>`,
modelled as an association list in first-insertion order. Key-based
`remove` is order-insensitive, exactly like the hash map's; iteration
order of the real hash map is arbitrary and is therefore modelled as an
explicit parameter wherever the source iterates the map. -/
abbrev TaxMap := List (TaxId × TaxAccruals)

/-- `HashMap::remove(&tax_id)`: returns the removed value (if the key was
present) together with the map without that entry. -/
def removeTax : TaxMap → TaxId → Option TaxAccruals × TaxMap
  | [], _ => (none, [])
  | (k, v) :: rest, tid =>
    if k = tid then (some v, rest)
    else
      let (r, rest') := removeTax rest tid
      (r, (k, v) :: rest')

/-- `broker_statement::dividends::process_dividend_accruals`
(dividends.rs lines 57-111), with the mutable `taxes` map threaded
explicitly: resolves the dividend accrual, removes and resolves the
matching tax accrual (if any), optionally records cash flows, and emits
the finished dividend — erroring when a fully-reversed dividend carries
paid tax. -/
def process_dividend_accruals (dividend : DividendId) (accruals : DividendAccruals)
    (taxes : TaxMap) (cash_flow_details : Bool) :
    Except String ((Option Dividend × List CashFlow) × TaxMap) := do
  let (amount, dividend_transactions) ←
    match accruals.get_result with
    | .ok r => pure r
    | .error e => .error ("Failed to process " ++ dividend.issuer ++ " dividend from " ++
        formatDate dividend.date ++ ": " ++ e)
  let tax_id := TaxId.new dividend.date dividend.issuer
  let (removed, taxes') := removeTax taxes tax_id
  let (paid_tax, tax_transactions) ←
    match removed with
    | none => pure ((none : Option Cash), ([] : List Transaction))
    | some tax_accruals =>
      match tax_accruals.get_result with
      | .ok r => pure r
      | .error e => .error ("Failed to process " ++ tax_id.issuer ++ " tax from " ++
          formatDate tax_id.date ++ ": " ++ e)
  let cash_flows : List CashFlow :=
    if cash_flow_details then
      dividend_transactions.map (fun t =>
        { date := t.date, amount := t.cash, type_ := CashFlowType.dividend dividend.issuer })
      ++ tax_transactions.map (fun t =>
        { date := t.date, amount := -t.cash, type_ := CashFlowType.tax dividend.issuer })
    else []
  match amount with
  | some amount =>
    .ok ((some { date := dividend.date, issuer := dividend.issuer, amount := amount,
                 paid_tax := paid_tax.getD (Cash.new amount.currency 0),
                 skip_from_cash_flow := cash_flow_details }, cash_flows), taxes')
  | none =>
    if paid_tax.isSome then
      .error ("Got paid tax for reversed " ++ dividend.issuer ++ " dividend from " ++
        formatDate dividend.date)
    else
      .ok ((none, cash_flows), taxes')

/-- Modelled from the spec: `ib::dividends::parse_dividends` is not under
`src/` (only its caller, ib/mod.rs line 171, is). Per spec §4.4 it drains
every pending dividend accrual key in the order the accruals were first
observed, processing each one against the tax map (which each step may
shrink by the matching key) and collecting the emitted dividends and cash
flows. -/
def parse_dividends (divAccruals : List (DividendId × DividendAccruals))
    (taxes : TaxMap) (cash_flow_details : Bool) :
    Except String (List Dividend × List CashFlow × TaxMap) :=
  match divAccruals with
  | [] => .ok ([], [], taxes)
  | (id, accruals) :: rest => do
    let ((divOpt, cfs), taxes') ← process_dividend_accruals id accruals taxes cash_flow_details
    let (divs, cfs', taxes'') ← parse_dividends rest taxes' cash_flow_details
    .ok (divOpt.toList ++ divs, cfs ++ cfs', taxes'')

/-- One line of the orphaned-taxes error message
(ib/mod.rs lines 174-176: `"* {date}: {description}"`). -/
def orphanTaxLine (t : TaxId) : String :=
  "* " ++ formatDate t.date ++ ": " ++ t.issuer

/-- The orphaned-taxes error message (ib/mod.rs lines 173-180): one line
per remaining tax key, joined with newlines. `order` is the sequence in
which `self.taxes.keys()` yields the remaining keys — arbitrary for a
`std::collections::HashMap`, hence a parameter. -/
def orphanTaxesError (order : List TaxId) : String :=
  "Unable to find origin operations for the following taxes:\n" ++
    String.intercalate "\n" (order.map orphanTaxLine)

/-- The reconciliation tail of `StatementParser::parse`
(ib/mod.rs lines 171-181): drain the dividend accruals through
`parse_dividends`, then demand the tax map be empty, erroring with the
orphaned-taxes message otherwise (so `self.statement.get()` on line 183 is
never reached and no statement is produced). `order` models the arbitrary
iteration order of `HashMap::keys()` over the remaining map. -/
def reconcileDividendsAndTaxes (divAccruals : List (DividendId × DividendAccruals))
    (taxes : TaxMap) (cash_flow_details : Bool) (order : List TaxId) :
    Except String (List Dividend × List CashFlow) := do
  let (divs, cfs, remaining) ← parse_dividends divAccruals taxes cash_flow_details
  if remaining.isEmpty then
    .ok (divs, cfs)
  else
    .error (orphanTaxesError order)

/-- `currency::CashAssets` (module not under `src/`; its shape — a dated
cash amount, used for the deposits list — is fixed by its uses in
`broker_statement/mod.rs`). -/
structure CashAssets where
  date : Date
  cash : Cash
deriving DecidableEq, Repr

/-- `brokers::BrokerInfo` (`broker_statement/mod.rs` lines 70-74). The
`config : BrokerConfig` field (deposit commission specifications) is
carried opaquely as it is only read by `get_deposit_commission`, which no
part of the parsing core calls. -/
structure BrokerInfo where
  name : String
deriving DecidableEq, Repr

/-- `broker_statement::BrokerStatement` (`broker_statement/mod.rs`
lines 13-21): the finished, immutable output of one parse. -/
structure BrokerStatement where
  broker : BrokerInfo
  period : Date × Date
  deposits : List CashAssets
  dividends : List Dividend
  instrument_names : List (String × String)
  total_value : Cash
deriving DecidableEq, Repr

/-- `broker_statement::BrokerStatementBuilder` (`broker_statement/mod.rs`
lines 31-38): the mutable accumulator; set-once fields are `Option`s. -/
structure BrokerStatementBuilder where
  broker : BrokerInfo
  period : Option (Date × Date)
  deposits : List CashAssets
  dividends : List Dividend
  instrument_names : List (String × String)
  total_value : Option Cash
deriving DecidableEq, Repr

/-- `BrokerStatementBuilder::new` (`broker_statement/mod.rs` lines 41-50). -/
def BrokerStatementBuilder.new (broker : BrokerInfo) : BrokerStatementBuilder :=
  { broker := broker, period := none, deposits := [], dividends := [],
    instrument_names := [], total_value := none }

/-- `broker_statement::set_option` (`broker_statement/mod.rs`
lines 121-127), named `setOption` because `set_option` is a Lean keyword:
writing into an already-set set-once field is a `Duplicate` error;
otherwise the new value is stored. On error the Rust function returns
before assigning, so the field keeps its old value. -/
def setOption {α : Type} (name : String) (option : Option α) (value : α) :
    Except String (Option α) :=
  if option.isSome then .error ("Duplicate " ++ name)
  else .ok (some value)

/-- `broker_statement::get_option` (`broker_statement/mod.rs`
lines 114-119): reading an unset required field at finalization is a
`... is missing` error. -/
def get_option {α : Type} (name : String) (option : Option α) : Except String α :=
  match option with
  | some value => .ok value
  | none => .error (name ++ " is missing")

/-- `BrokerStatementBuilder::set_period` (`broker_statement/mod.rs`
lines 52-54): `set_option("statement period", ...)`; the builder is
returned unchanged except possibly for the `period` field. -/
def BrokerStatementBuilder.set_period (b : BrokerStatementBuilder) (period : Date × Date) :
    Except String BrokerStatementBuilder := do
  let p ← setOption "statement period" b.period period
  .ok { b with period := p }

/-- Modelled from the spec: the total-value setter lives in the record
handlers (`ib/parsers.rs`, not under `src/`), which write the set-once
`total_value` field through `set_option` exactly as `set_period` does
(spec §3: "set-once (statement period, total value, ...) — writing a
second value is an error"). -/
def BrokerStatementBuilder.set_total_value (b : BrokerStatementBuilder) (value : Cash) :
    Except String BrokerStatementBuilder := do
  let v ← setOption "total value" b.total_value value
  .ok { b with total_value := v }

/-- `BrokerStatementBuilder::get` (`broker_statement/mod.rs` lines 56-67):
consume the builder into a `BrokerStatement`; the struct-literal fields
evaluate in declaration order, so an unset `period` errors first
("statement period is missing"), then an unset `total_value`
("total value is missing"). -/
def BrokerStatementBuilder.get (b : BrokerStatementBuilder) :
    Except String BrokerStatement := do
  let period ← get_option "statement period" b.period
  let total_value ← get_option "total value" b.total_value
  .ok { broker := b.broker, period := period, deposits := b.deposits,
        dividends := b.dividends, instrument_names := b.instrument_names,
        total_value := total_value }

/-- Modelled from the spec: the multi-currency cash account behind
`statement.cash_assets` (the revision of the builder used by `ib/mod.rs`;
not under `src/`) is a "map of cash balances by currency" (spec §3). -/
abbrev MultiCurrencyCashAccount := List (String × ℚ)

/-- Modelled from the spec: `cash_assets.deposit(amount)` adds the amount
into the balance of the amount's currency, creating the entry if absent. -/
def MultiCurrencyCashAccount.deposit (ca : MultiCurrencyCashAccount) (c : Cash) :
    MultiCurrencyCashAccount :=
  match ca with
  | [] => [(c.currency, c.amount)]
  | (cur, amt) :: rest =>
    if cur = c.currency then (cur, amt + c.amount) :: rest
    else (cur, amt) :: MultiCurrencyCashAccount.deposit rest c

/-- The base-currency-summary fallback of `StatementParser::parse`
(ib/mod.rs lines 162-169): when no section recorded a per-currency cash
balance, the base currency summary becomes the sole cash balance; its
absence is a fatal error. -/
def finalizeCashAssets (cash_assets : MultiCurrencyCashAccount)
    (base_currency_summary : Option Cash) :
    Except String MultiCurrencyCashAccount :=
  if cash_assets.isEmpty then
    match base_currency_summary with
    | none => .error "Unable to find base currency summary"
    | some amount => .ok (cash_assets.deposit amount)
  else
    .ok cash_assets

/-- A raw CSV row (`csv::StringRecord`): an ordered list of text fields. -/
abbrev Row := List String

/-- `record.get(i).unwrap()`: field access. The source only unwraps after
checking `record.len() >= 2` (for indices 0 and 1), so the default value
is never observed on the guarded paths. -/
def rowGet (r : Row) (i : Nat) : String := r.getD i ""

/-- Modelled from the spec: `ib::common::format_record` is not under
`src/`; per spec §7 structural errors carry "the offending row's literal
text", so the model renders the row by joining its fields. -/
def format_record (r : Row) : String := String.intercalate ", " r

/-- The dispatch-relevant interface of `ib::common::RecordParser`
(`ib/common.rs`, not under `src/`; the interface — `data_types()`,
`skip_data_types()` and `parse(...)` — is fixed by its uses in
ib/mod.rs lines 104-154): an optional allow-list of row discriminators,
an optional skip-list, and the parse operation. The parse operation's
mutation of the statement builder is abstracted into its success/failure
result, which is all the dispatcher observes. -/
structure RecordParser where
  data_types : Option (List String)
  skip_data_types : Option (List String)
  parseFn : String → List String → Row → Except String Unit

/-- `if let Some(skip_data_types) = skip_data_types { skip_data_types.contains(...) }`
(ib/mod.rs lines 136-140). -/
def inSkipList (p : RecordParser) (d : String) : Bool :=
  match p.skip_data_types with
  | some l => l.contains d
  | none => false

/-- `if let Some(data_types) = data_types { !data_types.contains(...) }`
(ib/mod.rs lines 142-146): true when an allow-list is declared and the
discriminator is absent from it. -/
def outsideAllowList (p : RecordParser) (d : String) : Bool :=
  match p.data_types with
  | some l => !l.contains d
  | none => false

/-- The dispatcher state (`ib::State`, ib/mod.rs lines 55-59), extended
with `body`: the source's `State::Header` arm runs an inner
`while let` loop over the open section's body rows (ib/mod.rs
lines 121-155); `body name fields` is the state of that loop after the
header `(name, fields)` has been parsed by `parse_header`. -/
inductive DState where
  | none
  | record (r : Row)
  | header (r : Row)
  | body (name : String) (fields : List String)

/-- Observable dispatcher events: a row handed to the open section's
handler (`parser.parse(&mut self, &Record { name, fields, values })`,
ib/mod.rs lines 148-154). Delivery is recorded as an event so that claims
about which rows reach a handler are stateable. -/
inductive Event where
  | delivered (name : String) (fields : List String) (r : Row)
deriving DecidableEq, Repr

/-- Termination rank of a dispatcher state: transitions that consume no
row strictly decrease it (`record → header/none`, `header → body`). -/
def DState.rank : DState → Nat
  | .body _ _ => 0
  | .header _ => 1
  | .none => 2
  | .record _ => 3

/-- The section-dispatching loop of `StatementParser::parse`
(ib/mod.rs lines 79-160), one-to-one with the source's `'state: loop`:

* `none`: read the next row (end of input terminates the parse);
* `record r`: rows shorter than two fields are an "Invalid record" error;
  discriminator `"Header"` opens a header; an empty discriminator is a
  headerless row, silently ignored; anything else is an "Invalid record"
  error;
* `header r`: `parse_header` — section name from field 0, field names
  from fields 2 onward (ib/mod.rs lines 187-192) — then enter the body
  loop with the handler selected from the registry `reg` by section name
  (ib/mod.rs lines 104-116);
* `body name fields`: the inner `while let` loop: short rows error; a row
  whose field 0 differs from the section name is re-fed as a fresh
  `record`; a row whose discriminator is `"Header"` re-enters the header
  state; then the skip-list, the allow-list and finally delivery to the
  handler, whose failure is wrapped with the row text.

The result is the list of delivery events made so far paired with
`none` on success or `some msg` on abort. -/
def runParser (reg : String → RecordParser) (st : DState) (rows : List Row)
    (acc : List Event) : List Event × Option String :=
  match st, rows with
  | .none, [] => (acc, none)
  | .none, r :: rest => runParser reg (.record r) rest acc
  | .record r, rows =>
    if r.length < 2 then (acc, some ("Invalid record: " ++ format_record r))
    else if rowGet r 1 = "Header" then runParser reg (.header r) rows acc
    else if rowGet r 1 = "" then runParser reg .none rows acc
    else (acc, some ("Invalid record: " ++ format_record r))
  | .header r, rows => runParser reg (.body (rowGet r 0) (List.drop 2 r)) rows acc
  | .body _ _, [] => (acc, none)
  | .body name fields, r :: rest =>
    if r.length < 2 then (acc, some ("Invalid record: " ++ format_record r))
    else if rowGet r 0 ≠ name then runParser reg (.record r) rest acc
    else if rowGet r 1 = "Header" then runParser reg (.header r) rest acc
    else if inSkipList (reg name) (rowGet r 1) then
      runParser reg (.body name fields) rest acc
    else if outsideAllowList (reg name) (rowGet r 1) then
      (acc, some ("Invalid data record type: " ++ format_record r))
    else
      match (reg name).parseFn name fields r with
      | .ok _ => runParser reg (.body name fields) rest (acc ++ [.delivered name fields r])
      | .error e =>
        (acc ++ [.delivered name fields r],
         some ("Failed to parse (" ++ format_record r ++ ") record: " ++ e))
termination_by 4 * rows.length + st.rank
decreasing_by
  all_goals simp [DState.rank]
  all_goals omega

/-! ### Helper lemmas and sample instantiations shared by several claims -/

/-- `Except` bind over a success reduces to the continuation. -/
theorem exceptBind_ok {ε α β : Type} (a : α) (f : α → Except ε β) :
    (Except.ok a >>= f) = f a := rfl

/-- `Except` bind over an error short-circuits. -/
theorem exceptBind_error {ε α β : Type} (e : ε) (f : α → Except ε β) :
    ((Except.error e : Except ε α) >>= f) = Except.error e := rfl

/-- A one-entry pending tax map: withholding for issuer `AAA` on day 1. -/
def taxOne : TaxMap := [(TaxId.new 1 "AAA", ⟨[⟨1, Cash.new "USD" 30⟩]⟩)]

/-- A two-entry pending tax map, inserted in the order `AAA` then `BBB`. -/
def taxTwo : TaxMap :=
  [(TaxId.new 1 "AAA", ⟨[⟨1, Cash.new "USD" 30⟩]⟩),
   (TaxId.new 2 "BBB", ⟨[⟨2, Cash.new "USD" 40⟩]⟩)]

/-- A dividend accrual whose transactions net to zero: `[+100, -100]` USD. -/
def accrualsZero : DividendAccruals :=
  ⟨[⟨1, Cash.new "USD" 100⟩, ⟨1, Cash.new "USD" (-100)⟩]⟩

/-- A dividend accrual netting to `+100` USD. -/
def accrualsHundred : DividendAccruals := ⟨[⟨1, Cash.new "USD" 100⟩]⟩

/-! ### Claims C1, C2, C3, C9 — dividend/tax reconciliation -/

/-- **C1.** After every pending dividend accrual key has been reconciled by
`parse_dividends` (each step removing the matching tax accrual from the
tax map), if the remaining tax map is non-empty then the reconciliation
tail of `StatementParser::parse` fails with the orphaned-taxes error, and
for *every* remaining `(date, issuer)` tax key — not just the first — the
key's formatted line occurs among the lines of the message (which is their
newline-join); no statement is produced since the result is an error.
`order` is the arbitrary `HashMap::keys()` iteration order, constrained to
be a permutation of the remaining keys. -/
theorem c1_orphan_taxes_enumerated
    (divAccruals : List (DividendId × DividendAccruals)) (taxes : TaxMap)
    (details : Bool) (order : List TaxId) (divs : List Dividend)
    (cfs : List CashFlow) (rem : TaxMap)
    (hparse : parse_dividends divAccruals taxes details = .ok (divs, cfs, rem))
    (hne : rem ≠ [])
    (hperm : order.Perm (rem.map Prod.fst)) :
    reconcileDividendsAndTaxes divAccruals taxes details order =
      .error (orphanTaxesError order) ∧
    ∀ k, k ∈ rem.map Prod.fst → orphanTaxLine k ∈ order.map orphanTaxLine := by
  constructor
  · simp [reconcileDividendsAndTaxes, hparse, exceptBind_ok, List.isEmpty_iff, hne]
  · intro k hk
    exact List.mem_map_of_mem _ (hperm.mem_iff.mpr hk)

/-- **C1 witness.** A parse with no dividend accruals and one pending tax
accrual: reconciliation errors and the single orphaned key is listed. -/
theorem c1_orphan_taxes_enumerated_witness :
    parse_dividends [] taxOne false = .ok ([], [], taxOne) ∧ taxOne ≠ [] ∧
    ([TaxId.new 1 "AAA"].Perm (taxOne.map Prod.fst)) ∧
    (reconcileDividendsAndTaxes [] taxOne false [TaxId.new 1 "AAA"] =
      .error (orphanTaxesError [TaxId.new 1 "AAA"]) ∧
    ∀ k, k ∈ taxOne.map Prod.fst → orphanTaxLine k ∈ [TaxId.new 1 "AAA"].map orphanTaxLine) :=
  ⟨by rfl, by simp [taxOne], by simp [taxOne],
   c1_orphan_taxes_enumerated [] taxOne false [TaxId.new 1 "AAA"] [] [] taxOne
     (by rfl) (by simp [taxOne]) (by simp [taxOne])⟩

/-- **C2.** For a dividend accrual key whose transactions net to zero
(`get_result` resolves the gross to `none`): if a matching tax accrual
under the same `(date, issuer)` key resolves to `some` paid tax,
`process_dividend_accruals` fails with the reversed-dividend error; if no
tax accrual matches, it succeeds emitting no dividend. -/
theorem c2_reversed_dividend_vs_tax
    (id : DividendId) (accruals : DividendAccruals) (taxes : TaxMap)
    (details : Bool) (txs : List Transaction)
    (hzero : accruals.get_result = .ok (none, txs)) :
    (∀ ta taxes2 paid ttxs,
        removeTax taxes (TaxId.new id.date id.issuer) = (some ta, taxes2) →
        Payments.get_result ta = .ok (some paid, ttxs) →
        process_dividend_accruals id accruals taxes details =
          .error ("Got paid tax for reversed " ++ id.issuer ++ " dividend from " ++
            formatDate id.date)) ∧
    (∀ taxes2, removeTax taxes (TaxId.new id.date id.issuer) = (none, taxes2) →
        ∃ cfs, process_dividend_accruals id accruals taxes details =
          .ok ((none, cfs), taxes2)) := by
  constructor
  · intro ta taxes2 paid ttxs hrm hta
    simp [process_dividend_accruals, hzero, hrm, hta]
  · intro taxes2 hrm
    refine ⟨if details then txs.map (fun t =>
      { date := t.date, amount := t.cash, type_ := CashFlowType.dividend id.issuer }) else [], ?_⟩
    simp [process_dividend_accruals, hzero, hrm]

/-- **C2 witness.** The `[+100, -100]` accrual of the spec's example: with
the matching tax accrual present the reconciliation errors, and with no
tax accrual it succeeds emitting no dividend. -/
theorem c2_reversed_dividend_vs_tax_witness :
    accrualsZero.get_result = .ok (none, accrualsZero.transactions) ∧
    process_dividend_accruals (DividendId.new 1 "AAA") accrualsZero taxOne false =
      .error "Got paid tax for reversed AAA dividend from 1" ∧
    (∃ cfs, process_dividend_accruals (DividendId.new 1 "AAA") accrualsZero [] false =
      .ok ((none, cfs), [])) := by
  have h := c2_reversed_dividend_vs_tax (DividendId.new 1 "AAA") accrualsZero taxOne false
    accrualsZero.transactions (by simp [accrualsZero, Payments.get_result, Cash.new])
  have h0 := c2_reversed_dividend_vs_tax (DividendId.new 1 "AAA") accrualsZero [] false
    accrualsZero.transactions (by simp [accrualsZero, Payments.get_result, Cash.new])
  refine ⟨by simp [accrualsZero, Payments.get_result, Cash.new], ?_, ?_⟩
  · have := h.1 ⟨[⟨1, Cash.new "USD" 30⟩]⟩ [] (Cash.new "USD" 30) [⟨1, Cash.new "USD" 30⟩]
      (by simp [taxOne, removeTax, TaxId.new, DividendId.new])
      (by simp [Payments.get_result, Cash.new])
    rw [this]
    simp [DividendId.new, formatDate]
    decide
  · exact h0.2 [] (by simp [removeTax])

/-- **C3.** For a dividend accrual key resolving to a non-zero gross
amount with no matching tax accrual under the same `(date, issuer)` key,
`process_dividend_accruals` emits a `Dividend` whose `paid_tax` is zero
denominated in the gross amount's currency. -/
theorem c3_no_tax_defaults_to_zero
    (id : DividendId) (accruals : DividendAccruals) (taxes : TaxMap)
    (details : Bool) (amt : Cash) (txs : List Transaction) (taxes2 : TaxMap)
    (hsome : accruals.get_result = .ok (some amt, txs))
    (hrm : removeTax taxes (TaxId.new id.date id.issuer) = (none, taxes2)) :
    ∃ cfs, process_dividend_accruals id accruals taxes details =
      .ok ((some { date := id.date, issuer := id.issuer, amount := amt,
                   paid_tax := Cash.new amt.currency 0,
                   skip_from_cash_flow := details }, cfs), taxes2) := by
  refine ⟨if details then txs.map (fun t =>
    { date := t.date, amount := t.cash, type_ := CashFlowType.dividend id.issuer }) else [], ?_⟩
  simp [process_dividend_accruals, hsome, hrm]

/-- **C3 witness.** The `[+100]` accrual of the spec's example with an
empty tax map yields a dividend with `paid_tax = 0 USD`. -/
theorem c3_no_tax_defaults_to_zero_witness :
    accrualsHundred.get_result = .ok (some (Cash.new "USD" 100), accrualsHundred.transactions) ∧
    ∃ cfs, process_dividend_accruals (DividendId.new 1 "AAA") accrualsHundred [] false =
      .ok ((some { date := 1, issuer := "AAA", amount := Cash.new "USD" 100,
                   paid_tax := Cash.new "USD" 0,
                   skip_from_cash_flow := false }, cfs), []) :=
  ⟨by simp [accrualsHundred, Payments.get_result, Cash.new],
   c3_no_tax_defaults_to_zero (DividendId.new 1 "AAA") accrualsHundred [] false
     (Cash.new "USD" 100) accrualsHundred.transactions []
     (by simp [accrualsHundred, Payments.get_result, Cash.new])
     (by simp [removeTax])⟩

/-- **C9 counterexample.** The pending tax map is a
`std::collections::HashMap` (ib/mod.rs line 65), whose key iteration order
is arbitrary — any permutation of the stored keys is a run the documented
contract allows. For the concrete two-key map `taxTwo` (keys inserted
`AAA` then `BBB`), the reversed order `[BBB, AAA]` is such a permutation,
differs from first-insertion order, and produces a different orphan-tax
error message than the first-insertion order does — so two runs need not
list the orphaned keys in the same (first-insertion) order. -/
theorem c9_counterexample :
    ([TaxId.new 2 "BBB", TaxId.new 1 "AAA"].Perm (taxTwo.map Prod.fst)) ∧
    [TaxId.new 2 "BBB", TaxId.new 1 "AAA"] ≠ taxTwo.map Prod.fst ∧
    reconcileDividendsAndTaxes [] taxTwo false [TaxId.new 2 "BBB", TaxId.new 1 "AAA"] ≠
      reconcileDividendsAndTaxes [] taxTwo false (taxTwo.map Prod.fst) := by
  have h1 : reconcileDividendsAndTaxes [] taxTwo false
      [TaxId.new 2 "BBB", TaxId.new 1 "AAA"] =
      .error (orphanTaxesError [TaxId.new 2 "BBB", TaxId.new 1 "AAA"]) := by
    simp [reconcileDividendsAndTaxes, parse_dividends, exceptBind_ok, taxTwo]
  have h2 : reconcileDividendsAndTaxes [] taxTwo false (taxTwo.map Prod.fst) =
      .error (orphanTaxesError (taxTwo.map Prod.fst)) := by
    simp [reconcileDividendsAndTaxes, parse_dividends, exceptBind_ok, taxTwo]
  refine ⟨?_, ?_, ?_⟩
  · simp [taxTwo]
    exact List.Perm.swap _ _ _
  · simp [taxTwo, TaxId.new]
  · rw [h1, h2]
    simp [taxTwo, orphanTaxesError, orphanTaxLine, TaxId.new, formatDate]
    decide

/-- **C9 amended.** The dividend accrual side is drained in first-observed
order (`parse_dividends` folds the accrual list), but the tax map's
iteration order is the hash map's arbitrary one: for *any* permutation
`order` of the remaining keys, the parse fails with the orphan message
over that permutation, and the message's lines are exactly (as a
multiset) the formatted remaining keys — so every orphan is listed, though
in no guaranteed, run-stable order. -/
theorem c9_amended_order_is_arbitrary_permutation
    (divAccruals : List (DividendId × DividendAccruals)) (taxes : TaxMap)
    (details : Bool) (order : List TaxId) (divs : List Dividend)
    (cfs : List CashFlow) (rem : TaxMap)
    (hparse : parse_dividends divAccruals taxes details = .ok (divs, cfs, rem))
    (hne : rem ≠ [])
    (hperm : order.Perm (rem.map Prod.fst)) :
    reconcileDividendsAndTaxes divAccruals taxes details order =
      .error (orphanTaxesError order) ∧
    (order.map orphanTaxLine).Perm ((rem.map Prod.fst).map orphanTaxLine) := by
  constructor
  · simp [reconcileDividendsAndTaxes, hparse, exceptBind_ok, List.isEmpty_iff, hne]
  · exact hperm.map orphanTaxLine

/-- **C9 amended witness.** The two-key map with the reversed iteration
order: the error is produced over that order and its lines are a
permutation of the stored keys' lines. -/
theorem c9_amended_order_is_arbitrary_permutation_witness :
    parse_dividends [] taxTwo false = .ok ([], [], taxTwo) ∧ taxTwo ≠ [] ∧
    ([TaxId.new 2 "BBB", TaxId.new 1 "AAA"].Perm (taxTwo.map Prod.fst)) ∧
    (reconcileDividendsAndTaxes [] taxTwo false [TaxId.new 2 "BBB", TaxId.new 1 "AAA"] =
      .error (orphanTaxesError [TaxId.new 2 "BBB", TaxId.new 1 "AAA"]) ∧
    (([TaxId.new 2 "BBB", TaxId.new 1 "AAA"].map orphanTaxLine).Perm
      ((taxTwo.map Prod.fst).map orphanTaxLine))) :=
  ⟨by rfl, by simp [taxTwo], by simp [taxTwo]; exact List.Perm.swap _ _ _,
   c9_amended_order_is_arbitrary_permutation [] taxTwo false
     [TaxId.new 2 "BBB", TaxId.new 1 "AAA"] [] [] taxTwo (by rfl) (by simp [taxTwo])
     (by simp [taxTwo]; exact List.Perm.swap _ _ _)⟩

/-! ### Claims C7, C8 — statement finalization and the builder -/

/-- **C7.** When no section recorded a per-currency cash balance (the
`cash_assets` account is empty at the end of the row loop): if a
base-currency summary was recorded it becomes the sole cash balance of the
statement; if none was recorded the parse fails with the fatal
"Unable to find base currency summary" error. -/
theorem c7_base_currency_summary_fallback
    (cash_assets : MultiCurrencyCashAccount) (summary : Option Cash)
    (hempty : cash_assets = []) :
    (∀ a, summary = some a →
      finalizeCashAssets cash_assets summary = .ok [(a.currency, a.amount)]) ∧
    (summary = none →
      finalizeCashAssets cash_assets summary =
        .error "Unable to find base currency summary") := by
  subst hempty
  constructor
  · intro a ha
    simp [finalizeCashAssets, ha, MultiCurrencyCashAccount.deposit]
  · intro h
    simp [finalizeCashAssets, h]

/-- **C7 witness.** An empty cash account with a `1000 USD` base-currency
summary yields exactly that one balance; with no summary, the fatal
error. -/
theorem c7_base_currency_summary_fallback_witness :
    (([] : MultiCurrencyCashAccount) = []) ∧
    (finalizeCashAssets [] (some (Cash.new "USD" 1000)) = .ok [("USD", 1000)] ∧
     finalizeCashAssets [] (none : Option Cash) =
       .error "Unable to find base currency summary") := by
  have h := c7_base_currency_summary_fallback [] (some (Cash.new "USD" 1000)) rfl
  have h2 := c7_base_currency_summary_fallback [] (none : Option Cash) rfl
  exact ⟨rfl, h.1 (Cash.new "USD" 1000) rfl, h2.2 rfl⟩

/-- **C8.** Set-once builder fields: writing `statement period` or
`total value` when already set fails with the `Duplicate ...` error (the
source returns before assigning, so in this pure model no updated builder
is produced and the field keeps its old value), and consuming the builder
through `get` with a required field unset fails with the
`... is missing` error naming the field (`statement period` is demanded
first, in struct-literal order). -/
theorem c8_set_once_and_missing_fields
    (b : BrokerStatementBuilder) (p newp : Date × Date) (v newv : Cash) :
    (b.period = some p →
      b.set_period newp = .error "Duplicate statement period") ∧
    (b.total_value = some v →
      b.set_total_value newv = .error "Duplicate total value") ∧
    (b.period = none →
      b.get = .error "statement period is missing") ∧
    (b.period = some p → b.total_value = none →
      b.get = .error "total value is missing") := by
  refine ⟨?_, ?_, ?_, ?_⟩
  · intro h
    simp [BrokerStatementBuilder.set_period, setOption, h, exceptBind_error]
  · intro h
    simp [BrokerStatementBuilder.set_total_value, setOption, h, exceptBind_error]
  · intro h
    simp [BrokerStatementBuilder.get, get_option, h, exceptBind_error]
  · intro hp ht
    simp [BrokerStatementBuilder.get, get_option, hp, ht, exceptBind_ok, exceptBind_error]

/-- A builder with both set-once fields already set. -/
def filledBuilder : BrokerStatementBuilder :=
  { BrokerStatementBuilder.new ⟨"Interactive Brokers"⟩ with
    period := some (1, 2), total_value := some (Cash.new "USD" 5) }

/-- **C8 witness.** A builder with both set-once fields set rejects second
writes with `Duplicate ...`; fresh builders report the missing field. -/
theorem c8_set_once_and_missing_fields_witness :
    filledBuilder.period = some (1, 2) ∧
    (filledBuilder.set_period (3, 4) = .error "Duplicate statement period" ∧
     filledBuilder.set_total_value (Cash.new "USD" 7) = .error "Duplicate total value" ∧
     (BrokerStatementBuilder.new ⟨"Interactive Brokers"⟩).get =
       .error "statement period is missing" ∧
     { filledBuilder with total_value := none }.get = .error "total value is missing") := by
  have h := c8_set_once_and_missing_fields filledBuilder (1, 2) (3, 4)
    (Cash.new "USD" 5) (Cash.new "USD" 7)
  have hfresh := c8_set_once_and_missing_fields (BrokerStatementBuilder.new ⟨"Interactive Brokers"⟩)
    (1, 2) (3, 4) (Cash.new "USD" 5) (Cash.new "USD" 7)
  have hnotot := c8_set_once_and_missing_fields { filledBuilder with total_value := none }
    (1, 2) (3, 4) (Cash.new "USD" 5) (Cash.new "USD" 7)
  exact ⟨rfl, h.1 rfl, h.2.1 rfl, hfresh.2.2.1 rfl, hnotot.2.2.2 rfl rfl⟩

/-! ### Claims C4, C5, C6, C10 — the section dispatcher -/

/-- A handler declaring both an allow-list (`["D"]`) and a skip-list
(`["S"]`) — both lists are optional and independent in the
`RecordParser` interface — whose parse operation always succeeds. -/
def sampleParser : RecordParser :=
  { data_types := some ["D"], skip_data_types := some ["S"],
    parseFn := fun _ _ _ => .ok () }

/-- A registry mapping every section name to `sampleParser`. -/
def sampleRegistry : String → RecordParser := fun _ => sampleParser

/-- **C5.** In the `Idle` (`State::None` → `State::Record`) state, for a
row with at least two fields: discriminator `"Header"` parses the row as a
section header — section name from field 0, field names from fields 2
onward — and enters the awaiting-body state; an empty discriminator is
ignored, returning to `Idle`; any other discriminator is the fatal
"Invalid record" error. -/
theorem c5_idle_dispatch (reg : String → RecordParser) (r : Row) (rest : List Row)
    (acc : List Event) (h2 : 2 ≤ r.length) :
    (rowGet r 1 = "Header" →
      runParser reg (.record r) rest acc =
        runParser reg (.body (rowGet r 0) (List.drop 2 r)) rest acc) ∧
    (rowGet r 1 = "" →
      runParser reg (.record r) rest acc = runParser reg .none rest acc) ∧
    (rowGet r 1 ≠ "Header" → rowGet r 1 ≠ "" →
      runParser reg (.record r) rest acc =
        (acc, some ("Invalid record: " ++ format_record r))) := by
  refine ⟨?_, ?_, ?_⟩
  · intro hh
    conv_lhs => rw [runParser]
    simp [Nat.not_lt.mpr h2, hh]
    rw [runParser]
  · intro hh
    conv_lhs => rw [runParser]
    simp [Nat.not_lt.mpr h2, hh]
  · intro hh he
    rw [runParser]
    simp [Nat.not_lt.mpr h2, hh, he]

/-- **C5 witness.** A concrete `Statement` header row, an ignored
headerless row, and a fatal data row with no governing header. -/
theorem c5_idle_dispatch_witness :
    2 ≤ (["Statement", "Header", "Field"] : Row).length ∧
    ((rowGet ["Statement", "Header", "Field"] 1 = "Header" →
      runParser sampleRegistry (.record ["Statement", "Header", "Field"]) [] [] =
        runParser sampleRegistry
          (.body (rowGet ["Statement", "Header", "Field"] 0)
            (List.drop 2 ["Statement", "Header", "Field"])) [] []) ∧
    (rowGet ["Statement", "Header", "Field"] 1 = "" →
      runParser sampleRegistry (.record ["Statement", "Header", "Field"]) [] [] =
        runParser sampleRegistry .none [] []) ∧
    (rowGet ["Statement", "Header", "Field"] 1 ≠ "Header" →
      rowGet ["Statement", "Header", "Field"] 1 ≠ "" →
      runParser sampleRegistry (.record ["Statement", "Header", "Field"]) [] [] =
        ([], some ("Invalid record: " ++ format_record ["Statement", "Header", "Field"])))) :=
  ⟨by decide,
   c5_idle_dispatch sampleRegistry ["Statement", "Header", "Field"] [] [] (by decide)⟩

/-- **C10.** Every row with fewer than two fields aborts parsing with an
"Invalid record" error carrying the row's rendered text — both when met
between sections (the `State::Record` arm) and inside an open section's
body (the body loop's length guard). The event list is returned unchanged
(`acc`), so the row is neither delivered to a handler nor treated as
closing the section, and the parse does not continue past it. -/
theorem c10_short_row_always_fatal (reg : String → RecordParser) (r : Row)
    (rest : List Row) (acc : List Event) (name : String) (fields : List String)
    (h : r.length < 2) :
    runParser reg (.record r) rest acc =
      (acc, some ("Invalid record: " ++ format_record r)) ∧
    runParser reg (.body name fields) (r :: rest) acc =
      (acc, some ("Invalid record: " ++ format_record r)) := by
  constructor
  · rw [runParser]
    simp [h]
  · rw [runParser]
    simp [h]

/-- **C10 witness.** The one-field row `["x"]` aborts in both positions
with the error carrying the row text. -/
theorem c10_short_row_always_fatal_witness :
    (["x"] : Row).length < 2 ∧
    (runParser sampleRegistry (.record ["x"]) [] [] =
      ([], some ("Invalid record: " ++ format_record ["x"])) ∧
    runParser sampleRegistry (.body "Sec" []) [["x"]] [] =
      ([], some ("Invalid record: " ++ format_record ["x"]))) :=
  ⟨by decide, c10_short_row_always_fatal sampleRegistry ["x"] [] [] "Sec" [] (by decide)⟩

/-- **C6.** Inside an open section `name`: a subsequent row (of at least
two fields) whose field 0 differs from `name`, or whose discriminator is
`"Header"`, is never consumed as a body row — the run from that point
equals re-processing the row as if freshly read (`State::Record`), closing
the current section; every other such row is handled by the body logic of
the open section: skipped when its discriminator is in the skip-list,
fatal "Invalid data record type" when a declared allow-list excludes it,
and otherwise delivered to the section's handler. -/
theorem c6_section_close_and_body (reg : String → RecordParser) (name : String)
    (fields : List String) (r : Row) (rest : List Row) (acc : List Event)
    (h2 : 2 ≤ r.length) :
    (rowGet r 0 ≠ name ∨ rowGet r 1 = "Header" →
      runParser reg (.body name fields) (r :: rest) acc =
        runParser reg (.record r) rest acc) ∧
    (rowGet r 0 = name → rowGet r 1 ≠ "Header" →
      (inSkipList (reg name) (rowGet r 1) = true →
        runParser reg (.body name fields) (r :: rest) acc =
          runParser reg (.body name fields) rest acc) ∧
      (inSkipList (reg name) (rowGet r 1) = false →
        outsideAllowList (reg name) (rowGet r 1) = true →
        runParser reg (.body name fields) (r :: rest) acc =
          (acc, some ("Invalid data record type: " ++ format_record r))) ∧
      (inSkipList (reg name) (rowGet r 1) = false →
        outsideAllowList (reg name) (rowGet r 1) = false →
        (∀ u, (reg name).parseFn name fields r = .ok u →
          runParser reg (.body name fields) (r :: rest) acc =
            runParser reg (.body name fields) rest (acc ++ [.delivered name fields r])) ∧
        (∀ e, (reg name).parseFn name fields r = .error e →
          runParser reg (.body name fields) (r :: rest) acc =
            (acc ++ [.delivered name fields r],
             some ("Failed to parse (" ++ format_record r ++ ") record: " ++ e))))) := by
  refine ⟨?_, ?_⟩
  · intro hcase
    by_cases hn : rowGet r 0 = name
    · have hh : rowGet r 1 = "Header" := by tauto
      conv_lhs => rw [runParser]
      simp [Nat.not_lt.mpr h2, hn, hh]
      conv_rhs => rw [runParser]
      simp [Nat.not_lt.mpr h2, hh]
    · conv_lhs => rw [runParser]
      simp [Nat.not_lt.mpr h2, hn]
  · intro hn hh
    refine ⟨?_, ?_, ?_⟩
    · intro hskip
      conv_lhs => rw [runParser]
      simp [Nat.not_lt.mpr h2, hn, hh, hskip]
    · intro hskip hallow
      rw [runParser]
      simp [Nat.not_lt.mpr h2, hn, hh, hskip, hallow]
    · intro hskip hallow
      constructor
      · intro u hok
        conv_lhs => rw [runParser]
        simp [Nat.not_lt.mpr h2, hn, hh, hskip, hallow, hok]
      · intro e herr
        rw [runParser]
        simp [Nat.not_lt.mpr h2, hn, hh, hskip, hallow, herr]

/-- **C6 witness.** A row of another section (`["Other", "D"]`) met inside
the open section `Sec` is re-fed as freshly read. -/
theorem c6_section_close_and_body_witness :
    2 ≤ (["Other", "D"] : Row).length ∧
    ((rowGet ["Other", "D"] 0 ≠ "Sec" ∨ rowGet ["Other", "D"] 1 = "Header") ∧
     runParser sampleRegistry (.body "Sec" []) [["Other", "D"]] [] =
       runParser sampleRegistry (.record ["Other", "D"]) [] []) :=
  ⟨by decide, by decide,
   (c6_section_close_and_body sampleRegistry "Sec" [] ["Other", "D"] [] [] (by decide)).1
     (by decide)⟩

/-- **C4 counterexample.** The skip-list is checked *before* the
allow-list (ib/mod.rs lines 136-146), so for a handler declaring both
lists, a data row of the open section whose discriminator is outside the
allow-list but inside the skip-list does not abort: here `"S"` is outside
`sampleParser`'s allow-list `["D"]`, yet the parse of the section body
`[["Sec", "S"]]` completes successfully — with no
"Invalid data record type" error and, equally against the claim's other
half, no delivery to the handler (the event list stays empty). -/
theorem c4_counterexample :
    outsideAllowList sampleParser "S" = true ∧
    inSkipList sampleParser "S" = true ∧
    runParser sampleRegistry (.body "Sec" []) [["Sec", "S"]] [] =
      ([], (none : Option String)) := by
  refine ⟨by decide, by decide, ?_⟩
  simp [runParser, sampleRegistry, sampleParser, inSkipList, rowGet]

/-- **C4 amended.** Restricted to data rows whose discriminator is *not*
in the handler's skip-list (the source consults the skip-list first): a
discriminator outside a declared allow-list always aborts with the
"Invalid data record type" error, and a discriminator not excluded by the
allow-list (inside it, or with no allow-list declared) is always
delivered to the handler. -/
theorem c4_amended_allow_list_after_skip_list (reg : String → RecordParser)
    (name : String) (fields : List String) (r : Row) (rest : List Row)
    (acc : List Event) (h2 : 2 ≤ r.length)
    (hname : rowGet r 0 = name) (hdisc : rowGet r 1 ≠ "Header")
    (hskip : inSkipList (reg name) (rowGet r 1) = false) :
    (outsideAllowList (reg name) (rowGet r 1) = true →
      runParser reg (.body name fields) (r :: rest) acc =
        (acc, some ("Invalid data record type: " ++ format_record r))) ∧
    (outsideAllowList (reg name) (rowGet r 1) = false →
      (∀ u, (reg name).parseFn name fields r = .ok u →
        runParser reg (.body name fields) (r :: rest) acc =
          runParser reg (.body name fields) rest (acc ++ [.delivered name fields r])) ∧
      (∀ e, (reg name).parseFn name fields r = .error e →
        runParser reg (.body name fields) (r :: rest) acc =
          (acc ++ [.delivered name fields r],
           some ("Failed to parse (" ++ format_record r ++ ") record: " ++ e)))) := by
  constructor
  · intro hallow
    rw [runParser]
    simp [Nat.not_lt.mpr h2, hname, hdisc, hskip, hallow]
  · intro hallow
    constructor
    · intro u hok
      conv_lhs => rw [runParser]
      simp [Nat.not_lt.mpr h2, hname, hdisc, hskip, hallow, hok]
    · intro e herr
      rw [runParser]
      simp [Nat.not_lt.mpr h2, hname, hdisc, hskip, hallow, herr]

/-- **C4 amended witness.** With `sampleParser`: the discriminator `"X"`
(not in the skip-list, outside the allow-list `["D"]`) aborts with the
"Invalid data record type" error, and `"D"` (in the allow-list) is
delivered. -/
theorem c4_amended_allow_list_after_skip_list_witness :
    inSkipList sampleParser "X" = false ∧
    outsideAllowList sampleParser "X" = true ∧
    runParser sampleRegistry (.body "Sec" []) [["Sec", "X"]] [] =
      ([], some ("Invalid data record type: " ++ format_record ["Sec", "X"])) ∧
    runParser sampleRegistry (.body "Sec" []) [["Sec", "D"]] [] =
      runParser sampleRegistry (.body "Sec" []) []
        ([] ++ [.delivered "Sec" [] ["Sec", "D"]]) :=
  ⟨by decide, by decide,
   (c4_amended_allow_list_after_skip_list sampleRegistry "Sec" [] ["Sec", "X"] [] []
     (by decide) (by decide) (by decide) (by decide)).1 (by decide),
   ((c4_amended_allow_list_after_skip_list sampleRegistry "Sec" [] ["Sec", "D"] [] []
     (by decide) (by decide) (by decide) (by decide)).2 (by decide)).1 () (by rfl)⟩
